import Mathlib

/-!
Shallow embedding of the lockbox-datastore core (mozilla-lockbox/lockbox-datastore).

The embedded code is `datastore.js` (the `DataStore` class, the `checkState`
gate, `determineItemChanges`, and `passwordToKey`) together with the two-table
persistence layer described by `localdatabase.js` (`items` keyed by `id`,
`keystores` keyed by `group`).  The files `itemkeystore.js` and `items.js` are
not present in the source snapshot (only their tests and callers are); those
parts are modelled from the spec, and each such definition carries a doc
comment starting with "Modelled from the spec:".

Machine-level cryptography (AES-256-GCM, PBKDF2) is idealized as a perfectly
authenticating envelope: a ciphertext records its payload, the key that sealed
it, and the associated data, and decryption succeeds exactly when the same key
and associated data are presented.  Fresh randomness (item keys, UUIDs, salts)
is drawn from an explicit counter threaded through the state.
-/

/-- Error kinds surfaced by the datastore.  Constructors correspond to the
errors thrown by the source: `notInitialized` and `locked` come from
`checkState`; `alreadyInitialized` is `DataStoreError.INITIALIZED` thrown by
`initialize`; `invalidItem` covers the source's `TypeError("expected item")` /
`TypeError("invalid item")` and the schema failures the test suite identifies
as `DataStoreError.INVALID_ITEM`; `missingItem` is the source's
`Error("item does not exist")`, identified as `DataStoreError.MISSING_ITEM` by
the test suite; the remaining kinds belong to the key store and codec. -/
inductive DSError where
  | notInitialized
  | locked
  | alreadyInitialized
  | invalidItem
  | missingItem
  | invalidMasterKey
  | notEncrypted
  | unknownKey
  | authTagMismatch
  deriving DecidableEq, Repr

/-- The `entry` sub-object of an item.  Each field is optional, mirroring key
presence on the JavaScript object. -/
structure Entry where
  kind : Option String := none
  username : Option String := none
  password : Option String := none
  notes : Option String := none
  deriving DecidableEq, Repr

/-- One element of an item's `history` list.  The source stores a JSON
merge-patch that reconstructs the previous entry; the patch is modelled by the
previous entry itself (its exact wire format is not relied on by any claim). -/
structure HistoryEntry where
  created : String
  patchTarget : Entry
  deriving DecidableEq, Repr

/-- A JavaScript item object.  `none` models an absent key.  `extra` lists the
names of any unknown top-level keys present on the object (needed to express
the schema's rejection of extraneous keys). -/
structure ItemObj where
  id : Option String := none
  title : Option String := none
  origins : Option (List String) := none
  tags : Option (List String) := none
  entry : Option Entry := none
  disabled : Option Bool := none
  created : Option String := none
  modified : Option String := none
  last_used : Option String := none
  history : Option (List HistoryEntry) := none
  extra : List String := []
  deriving DecidableEq, Repr

/-- JavaScript `a || b` on object fields: the first operand when its key is
present, otherwise the second. -/
def jsOr {α : Type} (a b : Option α) : Option α :=
  match a with
  | some v => some v
  | none => b

/-- The field-wise effect of `Object.assign({}, prev, next)` in
`determineItemChanges`: every top-level key present on `next` wins, keys absent
from `next` keep their `prev` value. -/
def assignItem (prev next : ItemObj) : ItemObj :=
  { id := jsOr next.id prev.id
    title := jsOr next.title prev.title
    origins := jsOr next.origins prev.origins
    tags := jsOr next.tags prev.tags
    entry := jsOr next.entry prev.entry
    disabled := jsOr next.disabled prev.disabled
    created := jsOr next.created prev.created
    modified := jsOr next.modified prev.modified
    last_used := jsOr next.last_used prev.last_used
    history := jsOr next.history prev.history
    extra := prev.extra ++ next.extra }

/-- The intermediate `fields` array built by `determineItemChanges` in
`datastore.js`, before it is comma-joined: overlay `next` onto `prev`, then
push `"title"` on title inequality, `"origins"` unless the origin arrays have
equal length and every previous origin occurs in the next one, and
`"entry.username"`, `"entry.password"`, `"entry.notes"` on inequality of the
corresponding entry fields, in exactly this order. -/
def determineItemChangesList (prev next : ItemObj) : List String :=
  let merged := assignItem prev next
  let titleF := if prev.title = merged.title then [] else ["title"]
  let prevOrigins := prev.origins.getD []
  let nextOrigins := merged.origins.getD []
  let originsF :=
    if prevOrigins.length = nextOrigins.length ∧ ∀ d ∈ prevOrigins, d ∈ nextOrigins
    then [] else ["origins"]
  let prevEntry := prev.entry.getD {}
  let nextEntry := merged.entry.getD {}
  let entryF :=
    (if prevEntry.username = nextEntry.username then [] else ["entry.username"]) ++
    (if prevEntry.password = nextEntry.password then [] else ["entry.password"]) ++
    (if prevEntry.notes = nextEntry.notes then [] else ["entry.notes"])
  titleF ++ originsF ++ entryF

/-- The record returned by `determineItemChanges` in `datastore.js`: the
changed-field list joined with commas. -/
structure DiffResult where
  fields : String
  deriving DecidableEq, Repr

/-- determineItemChanges from `datastore.js`. -/
def determineItemChanges (prev next : ItemObj) : DiffResult :=
  { fields := String.intercalate "," (determineItemChangesList prev next) }

/-- PASSWORD_PREFIX from `datastore.js`: BASE64URL(SHA-256("project lockbox")),
the domain-separation tag prepended to the master password. -/
def passwordPrefixTag : String := "-GV3ItzyNxfBGp3ZjtqVGswWWlT7tIMZjeXanHqhxm0"

/-- passwordToKey from `datastore.js`: the master wrapping key is built from
the prefixed password (`PASSWORD_PREFIX + (pwd || "")`); the key material is
modelled by that string itself, since base64url encoding is injective. -/
def passwordToKey (pwd : Option String) : String :=
  passwordPrefixTag ++ pwd.getD ""

/-- Modelled from the spec: the wrapped keyring blob produced by the Envelope
(`itemkeystore.js` is not in src/).  AES-256-GCM under the derived wrapping
key is idealized as a perfectly authenticating envelope: the blob records the
serialized keyring and the wrapping key that sealed it, and `unwrap` succeeds
exactly when the same wrapping key is presented.  The fresh nonce drawn per
`wrap` call does not affect the modelled contract and is omitted. -/
structure Blob where
  payload : List (String × Nat)
  tag : String
  deriving DecidableEq, Repr

/-- Modelled from the spec: `wrap(master, keyring_json) → blob` never fails
when a master key is present. -/
def wrap (master : String) (keys : List (String × Nat)) : Blob :=
  { payload := keys, tag := master }

/-- Modelled from the spec: `unwrap(master, blob) → keyring_json` fails with
`InvalidMasterKey` on tag mismatch. -/
def unwrap (master : String) (blob : Blob) : Except DSError (List (String × Nat)) :=
  if blob.tag = master then .ok blob.payload else .error .invalidMasterKey

/-- The persisted shape of an item key store:
`{ group, salt, iterations, encrypted }`. -/
structure KeystoreJSON where
  group : String
  salt : String
  iterations : Nat
  encrypted : Option Blob
  deriving DecidableEq, Repr

/-- Modelled from the spec: the ItemKeyStore (`itemkeystore.js` is not in
src/): the in-memory mapping from item id to item key, with the envelope
parameters used to persist it.  Item keys are modelled as natural numbers
drawn from a freshness counter. -/
structure ItemKeyStore where
  group : String := ""
  salt : String := ""
  iterations : Nat := 8192
  encrypted : Option Blob := none
  masterKey : Option String := none
  keys : List (String × Nat) := []
  deriving DecidableEq, Repr

namespace ItemKeyStore

/-- The persisted `{ group, salt, iterations, encrypted }` view. -/
def toJSON (iks : ItemKeyStore) : KeystoreJSON :=
  { group := iks.group, salt := iks.salt, iterations := iks.iterations,
    encrypted := iks.encrypted }

/-- Looks up the item key bound to `id`, if any. -/
def lookupKey (iks : ItemKeyStore) (id : String) : Option Nat :=
  (iks.keys.find? (fun p => p.1 == id)).map (fun p => p.2)

/-- Modelled from the spec: `add(id)` is idempotent; an existing key is
returned, otherwise the supplied fresh key is stored and returned. -/
def addKey (iks : ItemKeyStore) (id : String) (fresh : Nat) : Nat × ItemKeyStore :=
  match iks.lookupKey id with
  | some k => (k, iks)
  | none => (fresh, { iks with keys := iks.keys ++ [(id, fresh)] })

/-- Modelled from the spec: `delete(id)` removes the key if present. -/
def deleteKey (iks : ItemKeyStore) (id : String) : ItemKeyStore :=
  { iks with keys := iks.keys.filter (fun p => p.1 != id) }

/-- Modelled from the spec: `load(master?)` requires the `encrypted` blob
(failing `NotEncrypted` otherwise), uses the provided master or the held one
(failing `InvalidMasterKey` when neither is available), and on a successful
unwrap replaces the in-memory map and retains the master. -/
def load (iks : ItemKeyStore) (master : Option String) : Except DSError ItemKeyStore :=
  match iks.encrypted with
  | none => .error .notEncrypted
  | some blob =>
    match jsOr master iks.masterKey with
    | none => .error .invalidMasterKey
    | some m =>
      match unwrap m blob with
      | .error e => .error e
      | .ok ks => .ok { iks with masterKey := some m, keys := ks }

/-- Modelled from the spec: `save()` requires the in-memory master (failing
`InvalidMasterKey` otherwise) and re-wraps the current map into `encrypted`. -/
def save (iks : ItemKeyStore) : Except DSError ItemKeyStore :=
  match iks.masterKey with
  | none => .error .invalidMasterKey
  | some m => .ok { iks with encrypted := some (wrap m iks.keys) }

/-- Modelled from the spec: `clear(hard?)` drops the in-memory map and the
master key; with `hard = true` it also drops `encrypted`. -/
def clear (iks : ItemKeyStore) (hard : Bool := false) : ItemKeyStore :=
  { iks with keys := [], masterKey := none,
             encrypted := if hard then none else iks.encrypted }

end ItemKeyStore

/-- Modelled from the spec: a per-item AEAD ciphertext (the Item Codec of
`itemkeystore.js`, not in src/), idealized as a perfectly authenticating
envelope recording the payload, the sealing item key, and the associated data
(the item's id). -/
structure EncItem where
  payload : ItemObj
  key : Nat
  aad : String
  deriving DecidableEq, Repr

namespace ItemKeyStore

/-- Modelled from the spec: `encrypt(item)` obtains (adding if necessary) the
item key for `item.id` and seals the item with the id as associated data.
`fresh` is the key material used when a new key must be generated. -/
def encryptItem (iks : ItemKeyStore) (item : ItemObj) (fresh : Nat) :
    EncItem × ItemKeyStore :=
  let id := item.id.getD ""
  let p := iks.addKey id fresh
  ({ payload := item, key := p.1, aad := id }, p.2)

/-- Modelled from the spec: `decrypt(id, ciphertext)` looks up the item key
for `id` (failing `UnknownKey` if missing) and fails `AuthTagMismatch` unless
the ciphertext was sealed under that key with `id` as associated data. -/
def decryptItem (iks : ItemKeyStore) (id : String) (enc : EncItem) :
    Except DSError ItemObj :=
  match iks.lookupKey id with
  | none => .error .unknownKey
  | some k =>
    if enc.key = k ∧ enc.aad = id then .ok enc.payload else .error .authTagMismatch

end ItemKeyStore

namespace Items

/-- Modelled from the spec: the only known `entry.kind` is `login`. -/
def knownKind (e : Entry) : Bool := e.kind == some "login"

/-- Modelled from the spec: "malformed id" — ids are opaque identifier
strings assigned on creation; a present id must be a nonempty string. -/
def wellFormedId (s : String) : Bool := s != ""

/-- Modelled from the spec: `Items.prepare(input, previous?)` (`items.js` is
not in src/).  Rejects extraneous top-level keys and malformed ids; with no
`previous` it requires an entry of known kind, assigns a fresh id and
timestamps, and initializes history; with a `previous` it requires the same
id, carries `created` over, stamps `modified`, prepends a history record when
the entry changed (bounded to 8), and normalizes origins and tags to
deduplicated lists.  All validation failures are `InvalidItem`. -/
def prepare (input : ItemObj) (previous : Option ItemObj) (freshId : String)
    (now : String) : Except DSError ItemObj :=
  if input.extra ≠ [] then .error .invalidItem
  else if input.id.any (fun s => ! wellFormedId s) then .error .invalidItem
  else
    match previous with
    | none =>
      match input.entry with
      | none => .error .invalidItem
      | some e =>
        if ! knownKind e then .error .invalidItem
        else .ok { input with
          id := some freshId
          created := some now
          modified := some now
          last_used := some now
          history := some []
          disabled := some (input.disabled.getD false)
          origins := some ((input.origins.getD []).dedup)
          tags := some ((input.tags.getD []).dedup) }
    | some prev =>
      if input.id ≠ prev.id then .error .invalidItem
      else if input.entry.any (fun e => ! knownKind e) then .error .invalidItem
      else
        let hist :=
          if input.entry ≠ prev.entry then
            ({ created := now, patchTarget := prev.entry.getD {} } :: prev.history.getD []).take 8
          else prev.history.getD []
        .ok { input with
          created := prev.created
          modified := some now
          last_used := jsOr input.last_used prev.last_used
          history := some hist
          disabled := some (input.disabled.getD false)
          origins := some ((input.origins.getD []).dedup)
          tags := some ((input.tags.getD []).dedup) }

end Items

/-- An `items`-table row: `{ id, active, encrypted }`. -/
structure ItemRecord where
  id : String
  active : String
  encrypted : EncItem
  deriving DecidableEq, Repr

/-- The two logical tables of the local database (`localdatabase.js`):
`items` keyed by `id` and `keystores` keyed by `group`. -/
structure LDB where
  items : List ItemRecord := []
  keystores : List KeystoreJSON := []
  deriving DecidableEq, Repr

namespace LDB

/-- The operation db.items.get(id). -/
def itemsGet (db : LDB) (id : String) : Option ItemRecord :=
  db.items.find? (fun r => r.id == id)

/-- The operation db.items.put(record): replace the row with the same id, or append. -/
def itemsPut (db : LDB) (r : ItemRecord) : LDB :=
  if (db.items.find? (fun x => x.id == r.id)).isSome then
    { db with items := db.items.map (fun x => if x.id == r.id then r else x) }
  else
    { db with items := db.items ++ [r] }

/-- The operation db.items.add(record): append a new row. -/
def itemsAdd (db : LDB) (r : ItemRecord) : LDB :=
  { db with items := db.items ++ [r] }

/-- The operation db.items.delete(id). -/
def itemsDelete (db : LDB) (id : String) : LDB :=
  { db with items := db.items.filter (fun r => r.id != id) }

/-- The operation db.keystores.get(group). -/
def keystoresGet (db : LDB) (g : String) : Option KeystoreJSON :=
  db.keystores.find? (fun k => k.group == g)

/-- The operation db.keystores.put(record): replace the row with the same group, or append. -/
def keystoresPut (db : LDB) (ks : KeystoreJSON) : LDB :=
  if (db.keystores.find? (fun x => x.group == ks.group)).isSome then
    { db with keystores := db.keystores.map (fun x => if x.group == ks.group then ks else x) }
  else
    { db with keystores := db.keystores ++ [ks] }

end LDB

/-- One call recorded by the `recordMetric` event sink: `(method, id, fields?)`. -/
structure EventRec where
  method : String
  id : String
  fields : Option String
  deriving DecidableEq, Repr

/-- The DataStore of `datastore.js`: the key store, the opened local database,
the log of sink events, and the freshness counter for generated ids, item
keys, and salts. -/
structure DataStore where
  keystore : ItemKeyStore := {}
  ldb : LDB := {}
  events : List EventRec := []
  nonce : Nat := 0
  deriving DecidableEq, Repr

/-- Fresh UUID generation, drawn from the freshness counter. -/
def freshUUID (n : Nat) : String := "uuid-" ++ toString n

/-- The options object accepted by `DataStore.initialize`.  The source
destructures only `password`, `salt` and `iterations`; a `rebase` member is
carried so that its (non-)effect can be stated. -/
structure InitOpts where
  password : Option String := none
  salt : Option String := none
  iterations : Option Nat := none
  rebase : Bool := false
  deriving DecidableEq, Repr

namespace DataStore

/-- The getter initialized: a keyring blob is persisted. -/
def initialized (ds : DataStore) : Bool := ds.keystore.encrypted.isSome

/-- The getter locked: no master key is in memory. -/
def locked (ds : DataStore) : Bool := ds.keystore.masterKey.isNone

/-- checkState from `datastore.js`: not initialized beats locked. -/
def checkState (ds : DataStore) : Except DSError Unit :=
  if ! ds.initialized then .error .notInitialized
  else if ds.locked then .error .locked
  else .ok ()

/-- DataStore.initialize from `datastore.js`.  Throws `INITIALIZED` whenever a
keyring blob is already persisted (the `rebase` option is not consulted);
otherwise derives the master key from the password, creates an empty key
store with the given or fresh salt, saves it, and persists it. -/
def initializeVault (ds : DataStore) (opts : InitOpts) : Except DSError Unit × DataStore :=
  if ds.keystore.encrypted.isSome then (.error .alreadyInitialized, ds)
  else
    let masterKey := passwordToKey opts.password
    let iks : ItemKeyStore :=
      { salt := opts.salt.getD ("salt-" ++ toString ds.nonce)
        iterations := opts.iterations.getD 8192
        masterKey := some masterKey }
    match iks.save with
    | .error e => (.error e, ds)
    | .ok iks' =>
      (.ok (), { ds with keystore := iks'
                         ldb := ds.ldb.keystoresPut iks'.toJSON
                         nonce := ds.nonce + 1 })

/-- DataStore.lock from `datastore.js`: clear the key store (soft). -/
def lock (ds : DataStore) : Except DSError Unit × DataStore :=
  (.ok (), { ds with keystore := ds.keystore.clear })

/-- DataStore.unlock from `datastore.js`: a no-op when already unlocked,
otherwise derive the master key from the password and load the key store. -/
def unlock (ds : DataStore) (pwd : Option String) : Except DSError Unit × DataStore :=
  if ! ds.locked then (.ok (), ds)
  else
    match ds.keystore.load (some (passwordToKey pwd)) with
    | .error e => (.error e, ds)
    | .ok iks => (.ok (), { ds with keystore := iks })

/-- DataStore.list from `datastore.js`: decrypt every stored record; a failed
decryption rejects the whole listing. -/
def list (ds : DataStore) : Except DSError (List (String × ItemObj)) × DataStore :=
  match ds.checkState with
  | .error e => (.error e, ds)
  | .ok _ =>
    (ds.ldb.items.mapM (fun r =>
      (ds.keystore.decryptItem r.id r.encrypted).map (fun it => (r.id, it))), ds)

/-- DataStore.get from `datastore.js`: `null` when the id is absent, the
decrypted item otherwise. -/
def get (ds : DataStore) (id : String) : Except DSError (Option ItemObj) × DataStore :=
  match ds.checkState with
  | .error e => (.error e, ds)
  | .ok _ =>
    match ds.ldb.itemsGet id with
    | none => (.ok none, ds)
    | some r =>
      match ds.keystore.decryptItem id r.encrypted with
      | .error e => (.error e, ds)
      | .ok item => (.ok (some item), ds)

/-- DataStore.add from `datastore.js`: prepare the item (fresh id and
timestamps), encrypt it under a (possibly fresh) item key, save the keyring,
write both tables in one transaction and emit `added`. -/
def add (ds : DataStore) (inp : Option ItemObj) (now : String) :
    Except DSError ItemObj × DataStore :=
  match ds.checkState with
  | .error e => (.error e, ds)
  | .ok _ =>
    match inp with
    | none => (.error .invalidItem, ds)
    | some input =>
      match Items.prepare input none (freshUUID ds.nonce) now with
      | .error e => (.error e, ds)
      | .ok item =>
        let id := item.id.getD ""
        let active := if item.disabled.getD false then "" else "active"
        let p := ds.keystore.encryptItem item (ds.nonce + 1)
        match p.2.save with
        | .error e => (.error e, { ds with keystore := p.2 })
        | .ok iks2 =>
          (.ok item,
           { ds with
             keystore := iks2
             ldb := (ds.ldb.itemsAdd { id := id, active := active, encrypted := p.1 }).keystoresPut iks2.toJSON
             events := ds.events ++ [{ method := "added", id := id, fields := none }]
             nonce := ds.nonce + 2 })

/-- DataStore.update from `datastore.js`: require a (JS-truthy) `item.id`,
read and decrypt the existing record (failing with the source's
item-does-not-exist error otherwise), prepare against it, compute the change
list, re-encrypt and rewrite only the item record, and emit `updated` with
the diff fields.  The keyring is not re-saved. -/
def update (ds : DataStore) (inp : Option ItemObj) (now : String) :
    Except DSError ItemObj × DataStore :=
  match ds.checkState with
  | .error e => (.error e, ds)
  | .ok _ =>
    match inp with
    | none => (.error .invalidItem, ds)
    | some input =>
      match input.id with
      | none => (.error .invalidItem, ds)
      | some id =>
        if id = "" then (.error .invalidItem, ds)
        else
          match ds.ldb.itemsGet id with
          | none => (.error .missingItem, ds)
          | some orig0 =>
            match ds.keystore.decryptItem id orig0.encrypted with
            | .error e => (.error e, ds)
            | .ok orig =>
              match Items.prepare input (some orig) id now with
              | .error e => (.error e, ds)
              | .ok item =>
                let changes := determineItemChanges orig item
                let active := if item.disabled.getD false then "" else "active"
                let p := ds.keystore.encryptItem item ds.nonce
                (.ok item,
                 { ds with
                   keystore := p.2
                   ldb := ds.ldb.itemsPut { id := id, active := active, encrypted := p.1 }
                   events := ds.events ++ [{ method := "updated", id := id, fields := some changes.fields }]
                   nonce := ds.nonce + 1 })

/-- DataStore.remove from `datastore.js`: a missing id yields `null`; an
existing record is decrypted, its item key deleted, the keyring saved, both
tables written in one transaction, and `deleted` emitted. -/
def remove (ds : DataStore) (id : String) : Except DSError (Option ItemObj) × DataStore :=
  match ds.checkState with
  | .error e => (.error e, ds)
  | .ok _ =>
    match ds.ldb.itemsGet id with
    | none => (.ok none, ds)
    | some r =>
      match ds.keystore.decryptItem id r.encrypted with
      | .error e => (.error e, ds)
      | .ok item =>
        let iks1 := ds.keystore.deleteKey id
        match iks1.save with
        | .error e => (.error e, { ds with keystore := iks1 })
        | .ok iks2 =>
          (.ok (some item),
           { ds with
             keystore := iks2
             ldb := (ds.ldb.itemsDelete id).keystoresPut iks2.toJSON
             events := ds.events ++ [{ method := "deleted", id := id, fields := none }] })

/-- Modelled from the spec: DataStore.touch (the method is absent from the
datastore source in src/; only its tests are present).  Verifies the vault is
unlocked, requires `item.id`, fails `MissingItem` on an absent id, sets
`last_used = now`, persists the re-encrypted item record, and emits
`touched`. -/
def touch (ds : DataStore) (inp : Option ItemObj) (now : String) :
    Except DSError ItemObj × DataStore :=
  match ds.checkState with
  | .error e => (.error e, ds)
  | .ok _ =>
    match inp with
    | none => (.error .invalidItem, ds)
    | some input =>
      match input.id with
      | none => (.error .invalidItem, ds)
      | some id =>
        match ds.ldb.itemsGet id with
        | none => (.error .missingItem, ds)
        | some _ =>
          let item := { input with last_used := some now }
          let active := if item.disabled.getD false then "" else "active"
          let p := ds.keystore.encryptItem item ds.nonce
          (.ok item,
           { ds with
             keystore := p.2
             ldb := ds.ldb.itemsPut { id := id, active := active, encrypted := p.1 }
             events := ds.events ++ [{ method := "touched", id := id, fields := none }]
             nonce := ds.nonce + 1 })

end DataStore

/-! Concrete fixtures used by witnesses and counterexamples. -/

/-- A concrete master wrapping key derived from the password "M1". -/
def masterA : String := passwordToKey (some "M1")

/-- A concrete login entry. -/
def entryA : Entry :=
  { kind := some "login", username := some "foo", password := some "bar", notes := some "n" }

/-- A concrete, fully populated item with id "A". -/
def itemA : ItemObj :=
  { id := some "A", title := some "My Item", origins := some ["a.example"],
    tags := some [], entry := some entryA, disabled := some false,
    created := some "t0", modified := some "t0", last_used := some "t0",
    history := some [] }

/-- The ciphertext of `itemA` under item key 7 with its id as associated data. -/
def encA : EncItem := { payload := itemA, key := 7, aad := "A" }

/-- The stored record for `itemA`. -/
def recA : ItemRecord := { id := "A", active := "active", encrypted := encA }

/-- A concrete unlocked key store holding the item key for "A", already saved. -/
def ksUnlocked : ItemKeyStore :=
  { salt := "s0", iterations := 8192, masterKey := some masterA,
    encrypted := some (wrap masterA [("A", 7)]), keys := [("A", 7)] }

/-- A concrete initialized, unlocked vault holding `itemA`. -/
def dsUnlocked : DataStore :=
  { keystore := ksUnlocked,
    ldb := { items := [recA], keystores := [ksUnlocked.toJSON] },
    events := [], nonce := 10 }

/-- The same vault after `lock`. -/
def dsLocked : DataStore := { dsUnlocked with keystore := ksUnlocked.clear }

/-- A fresh vault: no persisted keyring, no master key. -/
def dsFresh : DataStore := {}

/-! Helper lemmas about the list-backed tables. -/

/-- Filtering away every element whose key is `i` leaves nothing for a
key-`i` search to find. -/
theorem find_of_filter_ne {α : Type} (l : List α) (f : α → String) (i : String) :
    (l.filter (fun x => f x != i)).find? (fun x => f x == i) = none := by
  induction l with
  | nil => rfl
  | cons a l ih =>
    by_cases h : f a = i
    · simp [List.filter_cons, h, ih]
    · simp [List.filter_cons, h, List.find?, ih]

/-- Replacing every element whose key matches `r`'s key yields `r` for a
matching search, provided a matching element existed. -/
theorem find_of_map_replace {α : Type} (l : List α) (f : α → String) (r : α)
    (h : (l.find? (fun x => f x == f r)).isSome) :
    (l.map (fun x => if f x == f r then r else x)).find? (fun x => f x == f r) = some r := by
  induction l with
  | nil => simp at h
  | cons a l ih =>
    by_cases ha : f a = f r
    · rw [List.map_cons, if_pos (by simp [ha] : (f a == f r) = true)]
      exact List.find?_cons_of_pos _ (by simp)
    · rw [List.map_cons, if_neg (by simp [ha] : ¬ ((f a == f r) = true))]
      rw [List.find?_cons_of_neg _ (by simp [ha])]
      apply ih
      rwa [List.find?_cons_of_neg _ (by simp [ha])] at h

/-- Appending a matching element to a list with no match yields it for the
search. -/
theorem find_of_append_single {α : Type} (l : List α) (p : α → Bool) (r : α)
    (h : l.find? p = none) (hr : p r = true) :
    (l ++ [r]).find? p = some r := by
  induction l with
  | nil => simp [List.find?, hr]
  | cons a l ih =>
    simp only [List.find?] at h ⊢
    cases hp : p a with
    | true => simp [hp] at h
    | false =>
      simp only [hp] at h ⊢
      simpa using ih h

/-- After `itemsPut r`, looking up `r.id` yields `r`. -/
theorem LDB.itemsGet_itemsPut (db : LDB) (r : ItemRecord) :
    (db.itemsPut r).itemsGet r.id = some r := by
  unfold LDB.itemsPut LDB.itemsGet
  by_cases h : (db.items.find? (fun x => x.id == r.id)).isSome
  · simp only [h, if_true]
    exact find_of_map_replace db.items (fun x => x.id) r h
  · simp only [h, if_false]
    have hn : db.items.find? (fun x => x.id == r.id) = none := by
      cases hf : db.items.find? (fun x => x.id == r.id) with
      | none => rfl
      | some v => rw [hf] at h; simp at h
    exact find_of_append_single db.items _ r hn (by simp)

/-- After `keystoresPut ks`, looking up `ks.group` yields `ks`. -/
theorem LDB.keystoresGet_keystoresPut (db : LDB) (ks : KeystoreJSON) :
    (db.keystoresPut ks).keystoresGet ks.group = some ks := by
  unfold LDB.keystoresPut LDB.keystoresGet
  by_cases h : (db.keystores.find? (fun x => x.group == ks.group)).isSome
  · simp only [h, if_true]
    exact find_of_map_replace db.keystores (fun x => x.group) ks h
  · simp only [h, if_false]
    have hn : db.keystores.find? (fun x => x.group == ks.group) = none := by
      cases hf : db.keystores.find? (fun x => x.group == ks.group) with
      | none => rfl
      | some v => rw [hf] at h; simp at h
    exact find_of_append_single db.keystores _ ks hn (by simp)

/-- After `itemsDelete i`, looking up `i` yields nothing. -/
theorem LDB.itemsGet_itemsDelete (db : LDB) (i : String) :
    (db.itemsDelete i).itemsGet i = none := by
  unfold LDB.itemsDelete LDB.itemsGet
  exact find_of_filter_ne db.items (fun r => r.id) i

/-- After `deleteKey i`, looking up `i` yields no key. -/
theorem ItemKeyStore.lookupKey_deleteKey (iks : ItemKeyStore) (i : String) :
    (iks.deleteKey i).lookupKey i = none := by
  unfold ItemKeyStore.deleteKey ItemKeyStore.lookupKey
  rw [show (fun p : String × Nat => p.1 != i) = (fun p : String × Nat => (fun q : String × Nat => q.1) p != i) from rfl]
  rw [find_of_filter_ne iks.keys (fun p => p.1) i]
  rfl

/-! Claim theorems. -/

/-- C1: the spec (and the repository's own tests "rebases a datastore to a
new password" / "fails to rebase a datastore when locked") require
`initialize` with `rebase=true` on an unlocked, initialized vault to succeed
and re-wrap the existing keyring under the new master, failing `Locked` only
when locked.  The datastore source in src/ never consults the `rebase`
option: on any vault with a persisted keyring it fails `AlreadyInitialized`.
Evaluated here on a concrete initialized, unlocked vault. -/
theorem c1_rebase_ignored :
    DataStore.initializeVault dsUnlocked
      { password := some "M2", salt := some "fresh", rebase := true }
      = (.error .alreadyInitialized, dsUnlocked) := rfl

/-- C2: each of the six data operations fails `notInitialized` when no
keyring is persisted and `locked` when the vault is locked, returning the
state unchanged (hence both tables untouched). -/
theorem c2_state_gate (ds : DataStore) (inp : Option ItemObj) (i now : String) :
    (ds.initialized = false →
      ds.list = (.error .notInitialized, ds) ∧
      ds.get i = (.error .notInitialized, ds) ∧
      ds.add inp now = (.error .notInitialized, ds) ∧
      ds.update inp now = (.error .notInitialized, ds) ∧
      ds.touch inp now = (.error .notInitialized, ds) ∧
      ds.remove i = (.error .notInitialized, ds)) ∧
    (ds.initialized = true → ds.locked = true →
      ds.list = (.error .locked, ds) ∧
      ds.get i = (.error .locked, ds) ∧
      ds.add inp now = (.error .locked, ds) ∧
      ds.update inp now = (.error .locked, ds) ∧
      ds.touch inp now = (.error .locked, ds) ∧
      ds.remove i = (.error .locked, ds)) := by
  constructor
  · intro h
    have hc : ds.checkState = .error .notInitialized := by
      simp [DataStore.checkState, h]
    simp [DataStore.list, DataStore.get, DataStore.add, DataStore.update,
          DataStore.touch, DataStore.remove, hc]
  · intro h1 h2
    have hc : ds.checkState = .error .locked := by
      simp [DataStore.checkState, h1, h2]
    simp [DataStore.list, DataStore.get, DataStore.add, DataStore.update,
          DataStore.touch, DataStore.remove, hc]

/-- C2 witness: evaluated on a concrete fresh vault and a concrete locked
vault. -/
theorem c2_state_gate_witness :
    dsFresh.initialized = false ∧
    dsFresh.list = (.error .notInitialized, dsFresh) ∧
    dsLocked.initialized = true ∧ dsLocked.locked = true ∧
    dsLocked.remove "A" = (.error .locked, dsLocked) :=
  ⟨rfl, ((c2_state_gate dsFresh none "A" "t1").1 rfl).1,
   rfl, rfl, ((c2_state_gate dsLocked none "A" "t1").2 rfl rfl).2.2.2.2.2⟩

/-- C9: `unlock` on an already-unlocked vault is a no-op returning success
with the state unchanged; `lock` always succeeds, leaves the vault locked,
and locking an already-locked vault returns success without changing the
state further. -/
theorem c9_unlock_noop_lock_idempotent (ds : DataStore) (pwd : Option String) :
    (ds.locked = false → ds.unlock pwd = (.ok (), ds)) ∧
    (ds.lock).1 = .ok () ∧
    ((ds.lock).2).locked = true ∧
    ((ds.lock).2).lock = (.ok (), (ds.lock).2) := by
  refine ⟨?_, rfl, rfl, ?_⟩
  · intro h
    simp [DataStore.unlock, h]
  · simp [DataStore.lock, ItemKeyStore.clear]

/-- C9 witness: evaluated on a concrete unlocked vault. -/
theorem c9_witness :
    dsUnlocked.locked = false ∧ dsUnlocked.unlock (some "M1") = (.ok (), dsUnlocked) :=
  ⟨rfl, (c9_unlock_noop_lock_idempotent dsUnlocked (some "M1")).1 rfl⟩

/-- Writing a keystore row leaves the items table untouched. -/
theorem LDB.itemsGet_keystoresPut (db : LDB) (ks : KeystoreJSON) (i : String) :
    (db.keystoresPut ks).itemsGet i = db.itemsGet i := by
  unfold LDB.keystoresPut LDB.itemsGet
  split <;> rfl

/-- Looking up the id of a just-put item record yields that record. -/
theorem LDB.itemsGet_itemsPut_of_id (db : LDB) (r : ItemRecord) (i : String)
    (h : r.id = i) : (db.itemsPut r).itemsGet i = some r :=
  h ▸ LDB.itemsGet_itemsPut db r

/-- C5 counterexample: on a concrete unlocked vault, `remove` of an absent id
does not fail `MissingItem` — it succeeds, returning null with the state
unchanged (`Except.ok none` is not an error). -/
theorem c5_counterexample :
    DataStore.remove dsUnlocked "absent" = (.ok none, dsUnlocked) ∧
    (Except.ok none : Except DSError (Option ItemObj)) ≠ .error .missingItem :=
  ⟨rfl, fun h => Except.noConfusion h⟩

/-- C5 amended: on an unlocked vault and an id with no stored item, `update`
fails `MissingItem` (the source's item-does-not-exist error), while `remove`
does not fail: it succeeds returning null and leaves the state unchanged. -/
theorem c5_missing_item (ds : DataStore) (input : ItemObj) (i now : String)
    (hinit : ds.initialized = true) (hlock : ds.locked = false)
    (hid : input.id = some i) (hne : i ≠ "")
    (habs : ds.ldb.itemsGet i = none) :
    ds.update (some input) now = (.error .missingItem, ds) ∧
    ds.remove i = (.ok none, ds) := by
  have hc : ds.checkState = .ok () := by
    simp [DataStore.checkState, hinit, hlock]
  constructor
  · simp [DataStore.update, hc, hid, hne, habs]
  · simp [DataStore.remove, hc, habs]

/-- C5 witness: evaluated on a concrete unlocked vault and the absent id "B". -/
theorem c5_missing_item_witness :
    dsUnlocked.initialized = true ∧ dsUnlocked.locked = false ∧
    dsUnlocked.update (some { itemA with id := some "B" }) "t1"
      = (.error .missingItem, dsUnlocked) ∧
    dsUnlocked.remove "B" = (.ok none, dsUnlocked) := by
  have h := c5_missing_item dsUnlocked { itemA with id := some "B" } "B" "t1"
    rfl rfl rfl (by decide) rfl
  exact ⟨rfl, rfl, h.1, h.2⟩

/-- C3: on an unlocked vault, `touch` requires `item.id` (failing
`InvalidItem` without one); on an absent id it fails `MissingItem` leaving
the state unchanged; on a stored id it returns the item with `last_used` set
to the current time, persists exactly that item in the items table, and
emits a `touched` event for the id. -/
theorem c3_touch (ds : DataStore) (input noid : ItemObj) (i now : String)
    (hinit : ds.initialized = true) (hlock : ds.locked = false)
    (hid : input.id = some i) (hnoid : noid.id = none) :
    ds.touch (some noid) now = (.error .invalidItem, ds) ∧
    (ds.ldb.itemsGet i = none → ds.touch (some input) now = (.error .missingItem, ds)) ∧
    ((ds.ldb.itemsGet i).isSome = true →
      (ds.touch (some input) now).1 = .ok { input with last_used := some now } ∧
      (((ds.touch (some input) now).2).ldb.itemsGet i).map (fun r => r.encrypted.payload)
        = some { input with last_used := some now } ∧
      ((ds.touch (some input) now).2).events
        = ds.events ++ [{ method := "touched", id := i, fields := none }]) := by
  have hc : ds.checkState = .ok () := by
    simp [DataStore.checkState, hinit, hlock]
  refine ⟨?_, ?_, ?_⟩
  · simp [DataStore.touch, hc, hnoid]
  · intro habs
    simp [DataStore.touch, hc, hid, habs]
  · intro hsome
    obtain ⟨r0, hr⟩ := Option.isSome_iff_exists.mp hsome
    refine ⟨?_, ?_, ?_⟩
    · simp [DataStore.touch, hc, hid, hr]
    · simp only [DataStore.touch, hc, hid, hr]
      rw [LDB.itemsGet_itemsPut_of_id _ _ _ rfl]
      simp [ItemKeyStore.encryptItem]
    · simp [DataStore.touch, hc, hid, hr]

/-- C3 witness: evaluated on a concrete unlocked vault holding item "A". -/
theorem c3_touch_witness :
    dsUnlocked.initialized = true ∧ dsUnlocked.locked = false ∧
    (dsUnlocked.ldb.itemsGet "A").isSome = true ∧
    (dsUnlocked.touch (some itemA) "t9").1 = .ok { itemA with last_used := some "t9" } ∧
    ((dsUnlocked.touch (some itemA) "t9").2).events
      = dsUnlocked.events ++ [{ method := "touched", id := "A", fields := none }] ∧
    dsUnlocked.touch (some { itemA with id := some "B" }) "t9"
      = (.error .missingItem, dsUnlocked) := by
  have h := c3_touch dsUnlocked itemA { itemA with id := none } "A" "t9" rfl rfl rfl rfl
  have h2 := c3_touch dsUnlocked { itemA with id := some "B" } { itemA with id := none }
    "B" "t9" rfl rfl rfl rfl
  exact ⟨rfl, rfl, rfl, (h.2.2 rfl).1, (h.2.2 rfl).2.2, h2.2.1 rfl⟩

/-- Looking up the group of a just-put keystore row yields that row. -/
theorem LDB.keystoresGet_keystoresPut_of_group (db : LDB) (ks : KeystoreJSON)
    (g : String) (h : ks.group = g) : (db.keystoresPut ks).keystoresGet g = some ks :=
  h ▸ LDB.keystoresGet_keystoresPut db ks

/-- C6: on an unlocked vault, after a successful `remove(id)` of a stored,
decryptable item: the removed item is returned, the items row for the id is
gone, the keyring holds no key for the id, the re-wrapped (saved) keyring is
the one persisted in the keystores table, a `deleted` event is emitted, and
a subsequent `get(id)` returns null. -/
theorem c6_remove (ds : DataStore) (i m : String) (r : ItemRecord) (k : Nat)
    (hinit : ds.initialized = true) (hm : ds.keystore.masterKey = some m)
    (hrec : ds.ldb.itemsGet i = some r)
    (hkey : ds.keystore.lookupKey i = some k)
    (henc : r.encrypted.key = k) (haad : r.encrypted.aad = i) :
    (ds.remove i).1 = .ok (some r.encrypted.payload) ∧
    ((ds.remove i).2).ldb.itemsGet i = none ∧
    ((ds.remove i).2).keystore.lookupKey i = none ∧
    ((ds.remove i).2).ldb.keystoresGet ds.keystore.group
      = some ((ds.remove i).2).keystore.toJSON ∧
    ((ds.remove i).2).keystore.encrypted
      = some (wrap m ((ds.remove i).2).keystore.keys) ∧
    ((ds.remove i).2).events
      = ds.events ++ [{ method := "deleted", id := i, fields := none }] ∧
    (((ds.remove i).2).get i).1 = .ok none := by
  have hlock : ds.locked = false := by simp [DataStore.locked, hm]
  have hc : ds.checkState = .ok () := by
    simp [DataStore.checkState, hinit, hlock]
  have hdec : ds.keystore.decryptItem i r.encrypted = .ok r.encrypted.payload := by
    simp [ItemKeyStore.decryptItem, hkey, henc, haad]
  have hmk : (ds.keystore.deleteKey i).masterKey = some m := hm
  have hsave : (ds.keystore.deleteKey i).save
      = .ok { ds.keystore.deleteKey i with
              encrypted := some (wrap m (ds.keystore.deleteKey i).keys) } := by
    simp [ItemKeyStore.save, hmk]
  have hitems : ((ds.remove i).2).ldb.itemsGet i = none := by
    simp only [DataStore.remove, hc, hrec, hdec, hsave]
    rw [LDB.itemsGet_keystoresPut, LDB.itemsGet_itemsDelete]
  refine ⟨?_, hitems, ?_, ?_, ?_, ?_, ?_⟩
  · simp [DataStore.remove, hc, hrec, hdec, hsave]
  · simp only [DataStore.remove, hc, hrec, hdec, hsave]
    exact ItemKeyStore.lookupKey_deleteKey ds.keystore i
  · simp only [DataStore.remove, hc, hrec, hdec, hsave]
    exact LDB.keystoresGet_keystoresPut_of_group _ _ _ rfl
  · simp only [DataStore.remove, hc, hrec, hdec, hsave]
  · simp [DataStore.remove, hc, hrec, hdec, hsave]
  · simp only [DataStore.get]
    have hc2 : ((ds.remove i).2).checkState = .ok () := by
      simp only [DataStore.remove, hc, hrec, hdec, hsave]
      simp [DataStore.checkState, DataStore.initialized, DataStore.locked,
            ItemKeyStore.deleteKey, hm]
    rw [hc2, hitems]

/-- C6 witness: evaluated on the concrete vault holding item "A" under item
key 7. -/
theorem c6_remove_witness :
    dsUnlocked.initialized = true ∧
    dsUnlocked.keystore.masterKey = some masterA ∧
    dsUnlocked.ldb.itemsGet "A" = some recA ∧
    dsUnlocked.keystore.lookupKey "A" = some 7 ∧
    (dsUnlocked.remove "A").1 = .ok (some recA.encrypted.payload) ∧
    ((dsUnlocked.remove "A").2).ldb.itemsGet "A" = none ∧
    ((dsUnlocked.remove "A").2).keystore.lookupKey "A" = none ∧
    (((dsUnlocked.remove "A").2).get "A").1 = .ok none := by
  have h := c6_remove dsUnlocked "A" masterA recA 7 rfl rfl rfl rfl rfl rfl
  exact ⟨rfl, rfl, rfl, rfl, h.1, h.2.1, h.2.2.1, h.2.2.2.2.2.2⟩

/-- Distinct master passwords derive distinct wrapping keys: the derivation
prepends a fixed domain-separation tag, which is left-cancellable. -/
theorem passwordToKey_inj (p q : String)
    (h : passwordToKey (some p) = passwordToKey (some q)) : p = q := by
  unfold passwordToKey at h
  have hd : (passwordPrefixTag ++ p).data = (passwordPrefixTag ++ q).data :=
    congrArg String.data h
  simp [String.data_append] at hd
  exact String.ext hd

/-- C7: wrapping a keyring and unwrapping the blob under the wrapping key
derived from the same master password returns the identical keyring
contents, and unwrapping under the key derived from any other master
password fails `InvalidMasterKey`. -/
theorem c7_wrap_unwrap (keys : List (String × Nat)) (p q : String) (h : p ≠ q) :
    unwrap (passwordToKey (some p)) (wrap (passwordToKey (some p)) keys) = .ok keys ∧
    unwrap (passwordToKey (some q)) (wrap (passwordToKey (some p)) keys)
      = .error .invalidMasterKey := by
  constructor
  · simp [unwrap, wrap]
  · have hne : passwordToKey (some p) ≠ passwordToKey (some q) :=
      fun hk => h (passwordToKey_inj p q hk)
    simp [unwrap, wrap, hne]

/-- C7 witness: evaluated on a concrete keyring and the passwords "M1" and
"M2". -/
theorem c7_wrap_unwrap_witness :
    ("M1" : String) ≠ "M2" ∧
    unwrap (passwordToKey (some "M1")) (wrap (passwordToKey (some "M1")) [("A", 7)])
      = .ok [("A", 7)] ∧
    unwrap (passwordToKey (some "M2")) (wrap (passwordToKey (some "M1")) [("A", 7)])
      = .error .invalidMasterKey := by
  have h := c7_wrap_unwrap [("A", 7)] "M1" "M2" (by decide)
  exact ⟨by decide, h.1, h.2⟩

/-- The prepare validation rejects extraneous top-level keys. -/
theorem prepare_err_of_extra (input : ItemObj) (prevO : Option ItemObj)
    (fid now : String) (hex : input.extra ≠ []) :
    Items.prepare input prevO fid now = .error .invalidItem := by
  simp [Items.prepare, hex]

/-- The prepare validation with no previous item requires an entry. -/
theorem prepare_err_of_no_entry (input : ItemObj) (fid now : String)
    (hentry : input.entry = none) :
    Items.prepare input none fid now = .error .invalidItem := by
  unfold Items.prepare
  split_ifs <;> simp [hentry]

/-- The prepare validation rejects an unknown entry.kind, with or without a
previous item. -/
theorem prepare_err_of_bad_kind (input : ItemObj) (prevO : Option ItemObj)
    (fid now : String) (e : Entry) (he : input.entry = some e)
    (hk : Items.knownKind e = false) :
    Items.prepare input prevO fid now = .error .invalidItem := by
  cases prevO <;> unfold Items.prepare <;> split_ifs <;> simp_all

/-- The prepare validation rejects a malformed (empty) id. -/
theorem prepare_err_of_bad_id (input : ItemObj) (prevO : Option ItemObj)
    (fid now : String) (hid : input.id = some "") :
    Items.prepare input prevO fid now = .error .invalidItem := by
  have hany : input.id.any (fun s => ! Items.wellFormedId s) = true := by
    simp [hid, Items.wellFormedId]
  unfold Items.prepare
  split_ifs <;> simp_all

/-- C8: `add` and `update` fail `InvalidItem` on a wholly absent item, a
missing entry (no previous), an unknown `entry.kind`, a malformed (empty or
absent) id, and extraneous top-level keys. -/
theorem c8_invalid_item (ds : DataStore) (input : ItemObj) (i now : String)
    (r : ItemRecord)
    (hinit : ds.initialized = true) (hlock : ds.locked = false) :
    ds.add none now = (.error .invalidItem, ds) ∧
    ds.update none now = (.error .invalidItem, ds) ∧
    (input.entry = none → ds.add (some input) now = (.error .invalidItem, ds)) ∧
    ((∃ e, input.entry = some e ∧ Items.knownKind e = false) →
      ds.add (some input) now = (.error .invalidItem, ds)) ∧
    (input.id = some "" → ds.add (some input) now = (.error .invalidItem, ds)) ∧
    (input.extra ≠ [] → ds.add (some input) now = (.error .invalidItem, ds)) ∧
    (input.id = none → ds.update (some input) now = (.error .invalidItem, ds)) ∧
    (input.id = some "" → ds.update (some input) now = (.error .invalidItem, ds)) ∧
    (∀ orig, input.id = some i → i ≠ "" → ds.ldb.itemsGet i = some r →
      ds.keystore.decryptItem i r.encrypted = .ok orig →
      (input.extra ≠ [] ∨ ∃ e, input.entry = some e ∧ Items.knownKind e = false) →
      ds.update (some input) now = (.error .invalidItem, ds)) := by
  have hc : ds.checkState = .ok () := by
    simp [DataStore.checkState, hinit, hlock]
  refine ⟨?_, ?_, ?_, ?_, ?_, ?_, ?_, ?_, ?_⟩
  · simp [DataStore.add, hc]
  · simp [DataStore.update, hc]
  · intro hentry
    simp [DataStore.add, hc, prepare_err_of_no_entry input _ now hentry]
  · rintro ⟨e, he, hk⟩
    simp [DataStore.add, hc, prepare_err_of_bad_kind input none _ now e he hk]
  · intro hid
    simp [DataStore.add, hc, prepare_err_of_bad_id input none _ now hid]
  · intro hex
    simp [DataStore.add, hc, prepare_err_of_extra input none _ now hex]
  · intro hid
    simp [DataStore.update, hc, hid]
  · intro hid
    simp [DataStore.update, hc, hid]
  · intro orig hid hne hrec hdec hbad
    have hprep : Items.prepare input (some orig) i now = .error .invalidItem := by
      rcases hbad with hex | ⟨e, he, hk⟩
      · exact prepare_err_of_extra input _ i now hex
      · exact prepare_err_of_bad_kind input _ i now e he hk
    simp [DataStore.update, hc, hid, hne, hrec, hdec, hprep]

/-- C8 witness: evaluated on the concrete unlocked vault, a concrete item
with an unknown entry kind, a concrete extraneous key, and a concrete empty
id. -/
theorem c8_invalid_item_witness :
    dsUnlocked.initialized = true ∧ dsUnlocked.locked = false ∧
    dsUnlocked.add none "t1" = (.error .invalidItem, dsUnlocked) ∧
    dsUnlocked.add (some { title := some "x" }) "t1" = (.error .invalidItem, dsUnlocked) ∧
    dsUnlocked.add (some { entry := some { kind := some "card" } }) "t1"
      = (.error .invalidItem, dsUnlocked) ∧
    dsUnlocked.add (some { itemA with id := some "" }) "t1"
      = (.error .invalidItem, dsUnlocked) ∧
    dsUnlocked.add (some { itemA with extra := ["bogus"] }) "t1"
      = (.error .invalidItem, dsUnlocked) ∧
    dsUnlocked.update (some { itemA with id := none }) "t1"
      = (.error .invalidItem, dsUnlocked) ∧
    dsUnlocked.update (some { itemA with extra := ["bogus"] }) "t1"
      = (.error .invalidItem, dsUnlocked) := by
  refine ⟨rfl, rfl, ?_, ?_, ?_, ?_, ?_, ?_, ?_⟩
  · exact (c8_invalid_item dsUnlocked itemA "A" "t1" recA rfl rfl).1
  · exact (c8_invalid_item dsUnlocked { title := some "x" } "A" "t1" recA rfl rfl).2.2.1 rfl
  · exact (c8_invalid_item dsUnlocked { entry := some { kind := some "card" } } "A" "t1"
      recA rfl rfl).2.2.2.1 ⟨{ kind := some "card" }, rfl, rfl⟩
  · exact (c8_invalid_item dsUnlocked { itemA with id := some "" } "A" "t1" recA
      rfl rfl).2.2.2.2.1 rfl
  · exact (c8_invalid_item dsUnlocked { itemA with extra := ["bogus"] } "A" "t1" recA
      rfl rfl).2.2.2.2.2.1 (by decide)
  · exact (c8_invalid_item dsUnlocked { itemA with id := none } "A" "t1" recA
      rfl rfl).2.2.2.2.2.2.1 rfl
  · exact (c8_invalid_item dsUnlocked { itemA with extra := ["bogus"] } "A" "t1" recA
      rfl rfl).2.2.2.2.2.2.2.2 recA.encrypted.payload rfl (by decide) rfl rfl (.inl (by decide))

/-- Follows the spec words for diff (a refinement target, not the source):
two origin lists denote the same set when each is contained in the other. -/
def sameOriginSet (a b : List String) : Bool :=
  a.all (fun d => b.contains d) && b.all (fun d => a.contains d)

/-- Follows the spec words for diff (a refinement target, not the source):
compare exactly title, origins (set-equal), entry.username, entry.password
and entry.notes (string-equal), listing changed fields in exactly this
enumeration order. -/
def diffSpecFields (prev next : ItemObj) : List String :=
  (if prev.title = next.title then [] else ["title"]) ++
  (if sameOriginSet (prev.origins.getD []) (next.origins.getD []) then [] else ["origins"]) ++
  (if (prev.entry.getD {}).username = (next.entry.getD {}).username then [] else ["entry.username"]) ++
  (if (prev.entry.getD {}).password = (next.entry.getD {}).password then [] else ["entry.password"]) ++
  (if (prev.entry.getD {}).notes = (next.entry.getD {}).notes then [] else ["entry.notes"])

/-- On duplicate-free lists, the source's origins check (equal length and
containment of the previous origins in the next ones) coincides with set
equality. -/
theorem origins_check_iff_sameSet (a b : List String) (ha : a.Nodup) (hb : b.Nodup) :
    (a.length = b.length ∧ ∀ d ∈ a, d ∈ b) ↔ sameOriginSet a b = true := by
  unfold sameOriginSet
  simp only [Bool.and_eq_true, List.all_eq_true, List.elem_iff]
  constructor
  · rintro ⟨hlen, hsub⟩
    refine ⟨hsub, ?_⟩
    have hperm : a.Perm b :=
      (ha.subperm (fun x hx => hsub x hx)).perm_of_length_le (le_of_eq hlen.symm)
    exact fun d hd => hperm.mem_iff.mpr hd
  · rintro ⟨hab, hba⟩
    have h1 := (ha.subperm (fun x hx => hab x hx)).length_le
    have h2 := (hb.subperm (fun x hx => hba x hx)).length_le
    exact ⟨by omega, hab⟩

/-- C4: on complete items (title, origins and entry all present) with
duplicate-free origin sets, the source's change detector reports exactly the
spec's five compared fields — title, origins by set equality, and the three
entry fields by string equality — comma-joined in exactly the spec's
enumeration order. -/
theorem c4_diff_fields (prev next : ItemObj)
    (ht : next.title.isSome = true) (ho : next.origins.isSome = true)
    (he : next.entry.isSome = true)
    (hnp : (prev.origins.getD []).Nodup) (hnn : (next.origins.getD []).Nodup) :
    (determineItemChanges prev next).fields
      = String.intercalate "," (diffSpecFields prev next) := by
  obtain ⟨t, ht'⟩ := Option.isSome_iff_exists.mp ht
  obtain ⟨os, ho'⟩ := Option.isSome_iff_exists.mp ho
  obtain ⟨e, he'⟩ := Option.isSome_iff_exists.mp he
  have hnn' : os.Nodup := by rw [ho'] at hnn; simpa using hnn
  unfold determineItemChanges determineItemChangesList diffSpecFields assignItem jsOr
  simp only [ht', ho', he', Option.getD_some]
  rw [if_congr (origins_check_iff_sameSet (prev.origins.getD []) os hnp hnn') rfl rfl]
  simp [List.append_assoc]

/-- A concrete update of `itemA` changing title and two entry fields. -/
def itemB : ItemObj :=
  { itemA with title := some "MY Item",
               entry := some { entryA with username := some "another-user",
                                           password := some "zab" } }

/-- C4 witness: evaluated on the concrete items `itemA` and `itemB` (the
spec's S3 scenario, whose changed fields are title, entry.username and
entry.password). -/
theorem c4_diff_fields_witness :
    itemB.title.isSome = true ∧ itemB.origins.isSome = true ∧
    itemB.entry.isSome = true ∧
    (itemA.origins.getD []).Nodup ∧ (itemB.origins.getD []).Nodup ∧
    (determineItemChanges itemA itemB).fields
      = String.intercalate "," (diffSpecFields itemA itemB) := by
  refine ⟨rfl, rfl, rfl, ?_, ?_, c4_diff_fields itemA itemB rfl rfl rfl ?_ ?_⟩ <;> decide

/-- Membership in a branch that is either empty or a single literal. -/
theorem mem_ite_nil_single {c : Prop} [Decidable c] (s t : String) :
    s ∈ (if c then ([] : List String) else [t]) ↔ ¬c ∧ s = t := by
  split <;> simp_all

/-- The change detector reports `"title"` exactly when the previous title
differs from the overlaid next title. -/
theorem mem_title_changes (prev next : ItemObj) :
    "title" ∈ determineItemChangesList prev next ↔
      ¬ prev.title = jsOr next.title prev.title := by
  simp only [determineItemChangesList, assignItem, List.mem_append, mem_ite_nil_single]
  simp

/-- The change detector reports `"origins"` exactly when the source's
length-and-containment check fails on the previous and overlaid origin
lists. -/
theorem mem_origins_changes (prev next : ItemObj) :
    "origins" ∈ determineItemChangesList prev next ↔
      ¬ ((prev.origins.getD []).length = ((jsOr next.origins prev.origins).getD []).length ∧
         ∀ d ∈ prev.origins.getD [], d ∈ (jsOr next.origins prev.origins).getD []) := by
  simp only [determineItemChangesList, assignItem, List.mem_append, mem_ite_nil_single]
  simp

/-- The change detector reports `"entry.username"` exactly when the previous
and overlaid entries disagree on `username`. -/
theorem mem_username_changes (prev next : ItemObj) :
    "entry.username" ∈ determineItemChangesList prev next ↔
      ¬ (prev.entry.getD {}).username = ((jsOr next.entry prev.entry).getD {}).username := by
  simp only [determineItemChangesList, assignItem, List.mem_append, mem_ite_nil_single]
  simp

/-- The change detector reports `"entry.password"` exactly when the previous
and overlaid entries disagree on `password`. -/
theorem mem_password_changes (prev next : ItemObj) :
    "entry.password" ∈ determineItemChangesList prev next ↔
      ¬ (prev.entry.getD {}).password = ((jsOr next.entry prev.entry).getD {}).password := by
  simp only [determineItemChangesList, assignItem, List.mem_append, mem_ite_nil_single]
  simp

/-- The change detector reports `"entry.notes"` exactly when the previous
and overlaid entries disagree on `notes`. -/
theorem mem_notes_changes (prev next : ItemObj) :
    "entry.notes" ∈ determineItemChangesList prev next ↔
      ¬ (prev.entry.getD {}).notes = ((jsOr next.entry prev.entry).getD {}).notes := by
  simp only [determineItemChangesList, assignItem, List.mem_append, mem_ite_nil_single]
  simp

/-- C10: the change detector overlays `next` onto `prev` before comparing, so
a compared top-level field absent from `next` takes its previous value and is
never reported; conversely, a reported field is explicitly present on `next`
with a differing value (title and origins at top level; the entry fields
require `entry` itself to be present). -/
theorem c10_overlay (prev next : ItemObj) :
    (next.title = none → "title" ∉ determineItemChangesList prev next) ∧
    (next.origins = none → "origins" ∉ determineItemChangesList prev next) ∧
    (next.entry = none →
      "entry.username" ∉ determineItemChangesList prev next ∧
      "entry.password" ∉ determineItemChangesList prev next ∧
      "entry.notes" ∉ determineItemChangesList prev next) ∧
    ("title" ∈ determineItemChangesList prev next →
      next.title ≠ none ∧ next.title ≠ prev.title) ∧
    ("origins" ∈ determineItemChangesList prev next → next.origins ≠ none) ∧
    (("entry.username" ∈ determineItemChangesList prev next ∨
      "entry.password" ∈ determineItemChangesList prev next ∨
      "entry.notes" ∈ determineItemChangesList prev next) → next.entry ≠ none) := by
  refine ⟨?_, ?_, ?_, ?_, ?_, ?_⟩
  · intro h hmem
    rw [mem_title_changes, h] at hmem
    exact hmem rfl
  · intro h hmem
    rw [mem_origins_changes, h] at hmem
    exact hmem ⟨rfl, fun d hd => hd⟩
  · intro h
    refine ⟨fun hm => ?_, fun hm => ?_, fun hm => ?_⟩
    · rw [mem_username_changes, h] at hm
      exact hm rfl
    · rw [mem_password_changes, h] at hm
      exact hm rfl
    · rw [mem_notes_changes, h] at hm
      exact hm rfl
  · intro hmem
    rw [mem_title_changes] at hmem
    cases hnt : next.title with
    | none =>
      rw [hnt] at hmem
      exact (hmem rfl).elim
    | some t =>
      refine ⟨by simp [hnt], ?_⟩
      rw [hnt] at hmem
      intro heq
      exact hmem heq.symm
  · intro hmem
    cases hno : next.origins with
    | none =>
      rw [mem_origins_changes, hno] at hmem
      exact (hmem ⟨rfl, fun d hd => hd⟩).elim
    | some os => simp [hno]
  · intro hmem
    cases hne : next.entry with
    | none =>
      rcases hmem with hm | hm | hm
      · rw [mem_username_changes, hne] at hm
        exact (hm rfl).elim
      · rw [mem_password_changes, hne] at hm
        exact (hm rfl).elim
      · rw [mem_notes_changes, hne] at hm
        exact (hm rfl).elim
    | some e => simp [hne]

/-- An update object carrying only an id: every compared field is absent. -/
def itemN : ItemObj := { id := some "A" }

/-- C10 witness: evaluated against the fully populated `itemA` and the
field-less update `itemN` — no compared field is reported. -/
theorem c10_overlay_witness :
    itemN.title = none ∧ itemN.origins = none ∧ itemN.entry = none ∧
    "title" ∉ determineItemChangesList itemA itemN ∧
    "origins" ∉ determineItemChangesList itemA itemN ∧
    "entry.password" ∉ determineItemChangesList itemA itemN :=
  ⟨rfl, rfl, rfl,
   (c10_overlay itemA itemN).1 rfl,
   (c10_overlay itemA itemN).2.1 rfl,
   ((c10_overlay itemA itemN).2.2.1 rfl).2.1⟩
